import Mathlib

/-!
Verification development for the Infinite-Transactions AMM simulator.

This file gives a shallow embedding of the simulator's core: the per-token
constant-product pool (the `Token` class of the token module), the recursive
USD price resolver with its cycle guard, the system-wide price convergence
pass, the multi-hop router (path discovery, simulation, execution), the
liquidity operations, and the capital/cascade analyzer.

Modelling conventions:
- Decimal.js values are modelled as exact rationals (`ℚ`); the source mandates
  an arbitrary-precision decimal layer for all reserve math.
- `Date.now()` is modelled by an explicit `now : ℤ` parameter threaded into
  every function that reads the clock.
- Mutation of the live token objects held in the global `state.tokens` array is
  modelled by explicit state passing: each mutating function returns the new
  state, and a method call on a token object is modelled by looking the token
  up by its id in the current state (token ids are unique in the simulator:
  the constructor rejects falsy ids and the UI allocates fresh ids).
- The JavaScript `visited` sets that are mutated in place and shared between
  recursive calls are modelled as explicit `List Nat` values threaded through
  and returned by each call, so the sharing is preserved exactly.
- Unbounded recursion is modelled with an explicit fuel parameter; call sites
  use a fuel that provably cannot run out (`tokens.length + 2`), so the fuel
  `none` branch is unreachable and the embedding computes exactly what the
  JavaScript computes.
-/

set_option maxHeartbeats 2000000

namespace InfiniteTransactions

/-- Pair classification of a pool: direct USD anchor, WPLS secondary anchor,
or paired with another token (token module, `this.pairType`). -/
inductive PairType where
  | USD
  | WPLS
  | TOKEN
deriving DecidableEq, Repr

/-- Capital calculation mode of the capital-tracking module:
market valuation or proportional real-capital backing. -/
inductive CapMode where
  | market
  | backing
deriving DecidableEq, Repr

/-- One token together with its AMM pool, embedding the fields of the `Token`
class that the core math reads or writes. -/
structure Token where
  id : Nat
  name : String
  pairType : PairType
  pairedTokenId : Option Nat
  tokenReserve : ℚ
  pairReserve : ℚ
  k : ℚ
  lpTotalSupply : ℚ
  totalSupply : ℚ
  totalLiquidity : ℚ
  plsBalance : ℚ
  cachedUSDPrice : ℚ
  priceLastUpdated : ℤ
deriving DecidableEq, Repr

/-- The slice of the global `state` object that the core reads. -/
structure St where
  tokens : List Token
  plsPrice : ℚ
  applySlippage : Bool
  maxRoutingHops : Nat
  capitalCalculationMode : CapMode
deriving DecidableEq, Repr

/-- `state.tokens.find(t => t.id === i)`. -/
def findTokenById (ts : List Token) (i : Nat) : Option Token :=
  ts.find? (fun t => t.id == i)

/-- `state.tokens.find(t => t.id === this.pairedTokenId)` where
`pairedTokenId` may be null. -/
def findPairedToken (ts : List Token) (pid : Option Nat) : Option Token :=
  match pid with
  | none => none
  | some i => findTokenById ts i

/-- Write-back of `this.cachedUSDPrice = p; this.priceLastUpdated = now` on the
live token object with id `i`. -/
def setTokenCache (ts : List Token) (i : Nat) (p : ℚ) (now : ℤ) : List Token :=
  ts.map (fun t => if t.id = i then { t with cachedUSDPrice := p, priceLastUpdated := now } else t)

/-- Write-back of an arbitrary field update on the live token object with id `i`. -/
def writeToken (ts : List Token) (i : Nat) (t' : Token) : List Token :=
  ts.map (fun t => if t.id = i then t' else t)

/-- `Token.calculateTokenPriceUSD(visited)` (token module): recursive USD price
resolution with a circular-dependency guard, a 1-second price cache, and
write-back of the computed price.  The result is the returned price together
with the updated state and the updated (shared, in-place mutated) visited set.
Fuel `0` yields `none`; call sites pass `tokens.length + 2`, which is proved
sufficient below. -/
def calculateTokenPriceUSD : Nat → St → Token → List Nat → ℤ → Option (ℚ × St × List Nat)
  | 0, _, _, _, _ => none
  | fuel + 1, st, t, visited, now =>
    if visited.contains t.id then
      some (0, st, visited)
    else
      let visited' := t.id :: visited
      if now - t.priceLastUpdated < 1000 ∧ t.cachedUSDPrice ≠ 0 then
        some (t.cachedUSDPrice, st, visited')
      else if t.pairReserve = 0 ∨ t.tokenReserve = 0 then
        some (0, { st with tokens := setTokenCache st.tokens t.id 0 now }, visited')
      else
        let ratio := t.pairReserve / t.tokenReserve
        match t.pairType with
        | .USD =>
          some (ratio, { st with tokens := setTokenCache st.tokens t.id ratio now }, visited')
        | .WPLS =>
          let p := ratio * st.plsPrice
          some (p, { st with tokens := setTokenCache st.tokens t.id p now }, visited')
        | .TOKEN =>
          match findPairedToken st.tokens t.pairedTokenId with
          | none =>
            some (0, { st with tokens := setTokenCache st.tokens t.id 0 now }, visited')
          | some pt =>
            match calculateTokenPriceUSD fuel st pt visited' now with
            | none => none
            | some (pp, st2, visited2) =>
              let p := ratio * pp
              some (p, { st2 with tokens := setTokenCache st2.tokens t.id p now }, visited2)

/-- One pass of `updateAllTokenPrices`' first phase: iterate (in order) over the
ids of the WPLS-paired tokens captured at entry, calling
`token.calculateTokenPriceUSD(visited)` on the live token with the shared
visited set. -/
def runPricePass (now : ℤ) : St → List Nat → List Nat → Option (St × List Nat)
  | st, visited, [] => some (st, visited)
  | st, visited, i :: rest =>
    match findTokenById st.tokens i with
    | none => runPricePass now st visited rest
    | some t =>
      match calculateTokenPriceUSD (st.tokens.length + 2) st t visited now with
      | none => none
      | some (_, st', visited') => runPricePass now st' visited' rest

/-- One iteration of `updateAllTokenPrices`' stabilization loop body over the
TOKEN-paired tokens: recompute each price with the shared visited set and
record in the `updated` flag whether any cached price moved by more than the
0.01% relative threshold (or changed from zero to non-zero). -/
def runTokenPass (now : ℤ) : St → List Nat → Bool → List Nat → Option (St × List Nat × Bool)
  | st, visited, updated, [] => some (st, visited, updated)
  | st, visited, updated, i :: rest =>
    match findTokenById st.tokens i with
    | none => runTokenPass now st visited updated rest
    | some t =>
      let oldPrice := t.cachedUSDPrice
      match calculateTokenPriceUSD (st.tokens.length + 2) st t visited now with
      | none => none
      | some (_, st', visited') =>
        let newPrice :=
          match findTokenById st'.tokens i with
          | some t' => t'.cachedUSDPrice
          | none => oldPrice
        let updated' :=
          if oldPrice ≠ 0 then
            if |newPrice - oldPrice| / oldPrice > 1 / 10000 then true else updated
          else if newPrice ≠ 0 then true else updated
        runTokenPass now st' visited' updated' rest

/-- The `while (updated && iteration < maxIterations)` stabilization loop of
`updateAllTokenPrices`, with the TOKEN-paired id list recomputed from the live
state on every iteration and the visited set carried over between iterations
(as in the source, where one `visited` set is created per
`updateAllTokenPrices` call and shared by every price computation in it). -/
def priceLoop (now : ℤ) : Nat → St → List Nat → Option St
  | 0, st, _ => some st
  | n + 1, st, visited =>
    let ids := (st.tokens.filter (fun t => t.pairType == PairType.TOKEN)).map (fun t => t.id)
    match runTokenPass now st visited false ids with
    | none => none
    | some (st', visited', updated) =>
      if updated then priceLoop now n st' visited' else some st'

/-- `updateAllTokenPrices` (state module): first update every WPLS-paired token
directly, then iterate (at most 10 passes) over the TOKEN-paired tokens until
no cached price changes by more than 0.01%. -/
def updateAllTokenPrices (st : St) (now : ℤ) : Option St :=
  let wplsIds := (st.tokens.filter (fun t => t.pairType == PairType.WPLS)).map (fun t => t.id)
  match runPricePass now st [] wplsIds with
  | none => none
  | some (st1, visited1) => priceLoop now 10 st1 visited1

/-- `Token.calculateSwapOutput(inputAmount, inputReserve, outputReserve,
feePercent)`: constant-product output with the fee (a percentage, default 0.3)
taken off the input first. -/
def calculateSwapOutput (inputAmount inputReserve outputReserve feePercent : ℚ) : ℚ :=
  let fee := feePercent / 100
  let inputWithFee := inputAmount * (1 - fee)
  outputReserve * inputWithFee / (inputReserve + inputWithFee)

/-- `Token.calculatePriceImpact(amountIn, amountOut)`: relative spot-price move
caused by a buy, in percent. -/
def calculatePriceImpact (t : Token) (amountIn amountOut : ℚ) : ℚ :=
  let priceBefore := t.pairReserve / t.tokenReserve
  let priceAfter := (t.pairReserve + amountIn) / (t.tokenReserve - amountOut)
  (priceAfter - priceBefore) / priceBefore * 100

/-- Result of `Token.executeBuy`: either `{success: false, error}` or
`{success: true, tokensReceived, priceImpact, slippageApplied, newPrice}`. -/
inductive BuyResult where
  | failure (error : String)
  | success (tokensReceived priceImpact : ℚ) (slippageApplied : Bool) (newPrice : ℚ)
deriving DecidableEq, Repr

/-- Whether a `BuyResult` is the `success: true` case. -/
def BuyResult.isSuccess : BuyResult → Bool
  | .failure _ => false
  | .success _ _ _ _ => true

/-- The reserve commit of `Token.executeBuy`: add the pair amount in, remove
the tokens out, recompute `k`, mirror `totalLiquidity`, invalidate the price
cache. -/
def buyCommit (t : Token) (amountIn tokenOut : ℚ) : Token :=
  let t1 := { t with pairReserve := t.pairReserve + amountIn,
                     tokenReserve := t.tokenReserve - tokenOut }
  { t1 with k := t1.tokenReserve * t1.pairReserve,
            totalLiquidity := t1.pairReserve,
            priceLastUpdated := 0 }

/-- Common tail of `Token.executeBuy` after a swap amount has been accepted:
commit the reserve mutations and the recomputed invariant on the live token,
invalidate the price cache, and resolve `newPrice` via
`this.calculateTokenPriceUSD()` (which re-caches the price). -/
def finishBuy (st : St) (t : Token) (amountIn tokenOut priceImpact : ℚ) (now : ℤ) :
    BuyResult × St :=
  let t2 := buyCommit t amountIn tokenOut
  let st1 := { st with tokens := writeToken st.tokens t.id t2 }
  match calculateTokenPriceUSD (st1.tokens.length + 2) st1 t2 [] now with
  | none => (.failure "fuel exhausted", st1)
  | some (newPrice, st2, _) =>
    (.success tokenOut priceImpact st.applySlippage newPrice, st2)

/-- `Token.executeBuy(pairAmountIn)` on the token with id `tid`: validation,
then either the constant-product swap with 0.3% fee (`state.applySlippage`
true) or the no-slippage spot-price swap (`state.applySlippage` false),
followed by the reserve commit.  The `fuel exhausted` failure of `finishBuy`
and the `token not found` failure here are unreachable artifacts of the
explicit-state embedding (a JS method call always has its live receiver). -/
def executeBuy (st : St) (tid : Nat) (pairAmountIn : ℚ) (now : ℤ) : BuyResult × St :=
  match findTokenById st.tokens tid with
  | none => (.failure "token not found", st)
  | some t =>
    if pairAmountIn ≤ 0 then
      (.failure "Amount must be positive", st)
    else if t.pairReserve = 0 ∨ t.tokenReserve = 0 then
      (.failure "No liquidity in pool", st)
    else if st.applySlippage then
      let tokenOut := calculateSwapOutput pairAmountIn t.pairReserve t.tokenReserve (3 / 10)
      if tokenOut ≥ t.tokenReserve then
        (.failure "Insufficient liquidity for this trade", st)
      else
        finishBuy st t pairAmountIn tokenOut (calculatePriceImpact t pairAmountIn tokenOut) now
    else
      let currentPrice := t.pairReserve / t.tokenReserve
      let tokenOut := pairAmountIn / currentPrice
      if tokenOut ≥ t.tokenReserve then
        (.failure "Insufficient liquidity for this trade", st)
      else
        finishBuy st t pairAmountIn tokenOut 0 now

/-- Fixed-iteration Newton step for an integer square root. -/
def isqrtStep : Nat → Nat → Nat → Nat
  | 0, _, g => g
  | f + 1, n, g =>
    let g' := (g + n / g) / 2
    if g' < g then isqrtStep f n g' else g

/-- Integer square root by 64 Newton iterations, used to model the rounded
`Decimal.sqrt` of the LP-mint computation.  No claim inspects LP-token values,
so only computability and determinism of this stand-in matter. -/
def isqrt (n : Nat) : Nat :=
  isqrtStep 64 n (n / 2 + 1)

/-- Model of `Decimal.sqrt` on rationals: fixed-point integer square root at
12 fractional digits of the radicand (6 of the result). -/
def decSqrt (q : ℚ) : ℚ :=
  ((isqrt (q * 1000000000000).floor.toNat : ℚ)) / 1000000

/-- `Token.getTokensLockedInOtherPools()`: total pair reserve of the other
pools whose pair asset is this token. -/
def getTokensLockedInOtherPools (st : St) (t : Token) : ℚ :=
  st.tokens.foldl
    (fun acc other =>
      if other.id ≠ t.id ∧ other.pairType = PairType.TOKEN ∧ other.pairedTokenId = some t.id then
        acc + other.pairReserve
      else acc)
    0

/-- `Token.getAvailableSupply()`: total supply minus the token's own pool
reserve minus the amount locked as the pair asset of other pools. -/
def getAvailableSupply (st : St) (t : Token) : ℚ :=
  t.totalSupply - t.tokenReserve - getTokensLockedInOtherPools st t

/-- `getAvailableSupply` of the live token with id `i`, as an `Option`. -/
def availableSupplyOf (st : St) (i : Nat) : Option ℚ :=
  (findTokenById st.tokens i).map (fun t => getAvailableSupply st t)

/-- `Token.addLiquidity(tokenAmount, pairAmount)` on the token with id `tid`:
positivity check, own-supply check (`totalSupply - tokenReserve`, the token's
own pool only), ratio check within 0.1% for non-initial deposits, pair-side
balance/supply checks, LP mint, reserve/invariant commit, cache invalidation,
and the final `this.calculateTokenPriceUSD()` of the success log line (which
re-caches the price).  Returns the JS boolean together with the new state. -/
def addLiquidity (st : St) (tid : Nat) (tokenAmount pairAmount : ℚ) (now : ℤ) : Bool × St :=
  match findTokenById st.tokens tid with
  | none => (false, st)
  | some t =>
    if tokenAmount ≤ 0 ∨ pairAmount ≤ 0 then
      (false, st)
    else
      let availableSupply := t.totalSupply - t.tokenReserve
      if tokenAmount > availableSupply then
        (false, st)
      else
        let isInitialLiquidity := t.pairReserve = 0 ∧ t.tokenReserve = 0
        let ratioOk :=
          if isInitialLiquidity then true
          else
            let currentRatio := t.pairReserve / t.tokenReserve
            let providedRatio := pairAmount / tokenAmount
            let ratioDiff := |currentRatio - providedRatio| / currentRatio
            ¬ (ratioDiff > 1 / 1000)
        if ¬ ratioOk then
          (false, st)
        else
          let pairCheck : Option Token :=
            match t.pairType with
            | .WPLS => if pairAmount > t.plsBalance then none else some { t with plsBalance := t.plsBalance - pairAmount }
            | .TOKEN =>
              match findPairedToken st.tokens t.pairedTokenId with
              | none => none
              | some pt => if pairAmount > getAvailableSupply st pt then none else some t
            | .USD => some t
          match pairCheck with
          | none => (false, st)
          | some tChecked =>
            let lpTokensToMint :=
              if isInitialLiquidity then decSqrt (tokenAmount * pairAmount)
              else tChecked.lpTotalSupply * (tokenAmount / tChecked.tokenReserve)
            let t1 := { tChecked with
              tokenReserve := tChecked.tokenReserve + tokenAmount,
              pairReserve := tChecked.pairReserve + pairAmount,
              lpTotalSupply := tChecked.lpTotalSupply + lpTokensToMint }
            let t2 := { t1 with
              k := t1.tokenReserve * t1.pairReserve,
              totalLiquidity := t1.pairReserve,
              priceLastUpdated := 0 }
            let st1 := { st with tokens := writeToken st.tokens tid t2 }
            match calculateTokenPriceUSD (st1.tokens.length + 2) st1 t2 [] now with
            | none => (false, st1)
            | some (_, st2, _) => (true, st2)

/-- Input-asset classification used by the routing module's `simulateSwap`. -/
inductive InputType where
  | USD
  | WPLS
  | TOKEN
deriving DecidableEq, Repr

/-- Result of the routing module's `simulateSwap`. -/
structure SwapSim where
  amountOut : ℚ
  priceImpact : ℚ
deriving DecidableEq, Repr

/-- `simulateSwap(token, amountIn, inputType, inputToken)` (routing module):
read-only constant-product quote with 0.3% fee against the token's current
reserves; null when the pool is empty.  `pairAmountIn` equals `amountIn` for
every input type, and `inputToken` is never read by the computation. -/
def simulateSwap (token : Token) (amountIn : ℚ) (_inputType : InputType)
    (_inputToken : Option Token) : Option SwapSim :=
  if token.tokenReserve = 0 ∨ token.pairReserve = 0 then
    none
  else
    let pairAmountIn := amountIn
    let fee : ℚ := 3 / 1000
    let amountInWithFee := pairAmountIn * (1 - fee)
    let tokenOut := token.tokenReserve * amountInWithFee / (token.pairReserve + amountInWithFee)
    let priceBefore := token.pairReserve / token.tokenReserve
    let newPairReserve := token.pairReserve + pairAmountIn
    let newTokenReserve := token.tokenReserve - tokenOut
    let priceAfter := newPairReserve / newTokenReserve
    let priceImpact := (priceAfter - priceBefore) / priceBefore * 100
    some { amountOut := tokenOut, priceImpact := priceImpact }

/-- One hop of a `Route` (routing module `RouteHop`). -/
structure Hop where
  token : Token
  amountIn : ℚ
  amountOut : ℚ
  priceImpact : ℚ
  pairType : PairType
deriving DecidableEq, Repr

/-- A `Route` of the routing module. -/
structure Route where
  hops : List Hop
  totalAmountOut : ℚ
  totalPriceImpact : ℚ
  pathDescription : String
deriving DecidableEq, Repr

/-- `buildPathDescription(path)` (routing module). -/
def buildPathDescription (path : List Token) : String :=
  match path with
  | [] => "No path"
  | [token] =>
    match token.pairType with
    | .USD => "USD → " ++ token.name
    | .WPLS => "USD → WPLS → " ++ token.name
    | .TOKEN =>
      String.intercalate " → " ("USD" :: path.map (fun t => t.name))
  | first :: _ =>
    let parts := "USD" :: (if first.pairType = PairType.WPLS then ["WPLS"] else [])
      ++ path.map (fun t => t.name)
    String.intercalate " → " parts

/-- The non-first hops of `calculatePathOutput`'s multi-hop loop: each previous
output becomes the next hop's TOKEN-type input, and absolute per-hop impacts
accumulate. -/
def runHops : List Token → Token → ℚ → ℚ → List Hop → Option (ℚ × ℚ × List Hop)
  | [], _, currentAmount, totalImpact, hops => some (currentAmount, totalImpact, hops)
  | token :: rest, prev, currentAmount, totalImpact, hops =>
    match simulateSwap token currentAmount .TOKEN (some prev) with
    | none => none
    | some r =>
      runHops rest token r.amountOut (totalImpact + |r.priceImpact|)
        (hops ++ [{ token := token, amountIn := currentAmount, amountOut := r.amountOut,
                    priceImpact := r.priceImpact, pairType := token.pairType }])

/-- `calculatePathOutput(path, amountIn)` (routing module).  In the multi-hop
branch a first hop whose pool is TOKEN-paired leaves the JS `inputType`
undefined and poisons the arithmetic with NaN; that shape is unreachable from
`findBestPath` (every discovered path starts at a USD/WPLS pool) and is
modelled as `none`. -/
def calculatePathOutput (st : St) (path : List Token) (amountIn : ℚ) : Option Route :=
  match path with
  | [] => none
  | [token] =>
    match token.pairType with
    | .USD =>
      match simulateSwap token amountIn .USD none with
      | none => none
      | some r =>
        some { hops := [{ token := token, amountIn := amountIn, amountOut := r.amountOut,
                          priceImpact := r.priceImpact, pairType := .USD }],
               totalAmountOut := r.amountOut, totalPriceImpact := r.priceImpact,
               pathDescription := buildPathDescription path }
    | .WPLS =>
      let wplsAmount := amountIn / st.plsPrice
      match simulateSwap token wplsAmount .WPLS none with
      | none => none
      | some r =>
        some { hops := [{ token := token, amountIn := amountIn, amountOut := r.amountOut,
                          priceImpact := r.priceImpact, pairType := .WPLS }],
               totalAmountOut := r.amountOut, totalPriceImpact := r.priceImpact,
               pathDescription := buildPathDescription path }
    | .TOKEN =>
      some { hops := [], totalAmountOut := amountIn, totalPriceImpact := 0,
             pathDescription := buildPathDescription path }
  | first :: rest =>
    let start : Option (ℚ × InputType) :=
      match first.pairType with
      | .USD => some (amountIn, .USD)
      | .WPLS => some (amountIn / st.plsPrice, .WPLS)
      | .TOKEN => none
    match start with
    | none => none
    | some (firstAmount, firstType) =>
      match simulateSwap first firstAmount firstType none with
      | none => none
      | some r =>
        let firstHop : Hop := { token := first, amountIn := firstAmount, amountOut := r.amountOut,
                                priceImpact := r.priceImpact, pairType := first.pairType }
        match runHops rest first r.amountOut (0 + |r.priceImpact|) [firstHop] with
        | none => none
        | some (finalAmount, totalImpact, hops) =>
          some { hops := hops, totalAmountOut := finalAmount, totalPriceImpact := totalImpact,
                 pathDescription := buildPathDescription path }

/-- The BFS loop of `findAllPaths`: pop a (target-first) partial path, complete
it when its last token reaches a USD/WPLS pool, extend it through a TOKEN pair
when the depth bound allows and the paired token is not already on the path. -/
def findAllPathsLoop (st : St) (maxDepth : Nat) :
    Nat → List (List Token) → List (List Token) → List (List Token)
  | 0, _, acc => acc
  | _ + 1, [], acc => acc
  | fuel + 1, currentPath :: queue, acc =>
    match currentPath.getLast? with
    | none => findAllPathsLoop st maxDepth fuel queue acc
    | some currentToken =>
      if currentToken.pairType = PairType.USD ∨ currentToken.pairType = PairType.WPLS then
        findAllPathsLoop st maxDepth fuel queue (acc ++ [currentPath.reverse])
      else if currentPath.length ≥ maxDepth then
        findAllPathsLoop st maxDepth fuel queue acc
      else if currentToken.pairType = PairType.TOKEN then
        match findPairedToken st.tokens currentToken.pairedTokenId with
        | some pairedToken =>
          if ¬ currentPath.any (fun t => t.id = pairedToken.id) then
            findAllPathsLoop st maxDepth fuel (queue ++ [currentPath ++ [pairedToken]]) acc
          else
            findAllPathsLoop st maxDepth fuel queue acc
        | none => findAllPathsLoop st maxDepth fuel queue acc
      else
        findAllPathsLoop st maxDepth fuel queue acc

/-- `findAllPaths(targetToken, maxDepth)` (routing module): backward BFS from
the target; `maxDepth` defaults to `state.maxRoutingHops`.  The fuel bounds
the number of loop iterations and never binds: every token has at most one
outgoing pair edge, so the queue never holds more than one path, each
processed path is strictly longer than the last, and paths stop growing at
`maxDepth` — the loop runs at most `maxDepth + 1` iterations. -/
def findAllPaths (st : St) (targetToken : Token) (maxDepth : Option Nat) : List (List Token) :=
  let md := maxDepth.getD st.maxRoutingHops
  findAllPathsLoop st md (md + 2) [[targetToken]] []

/-- `findBestPath(targetToken, amountIn)` (routing module): simulate every
discovered path and keep the one with the strictly greatest output. -/
def findBestPath (st : St) (targetToken : Token) (amountIn : ℚ) : Option Route :=
  let paths := findAllPaths st targetToken none
  (paths.foldl
    (fun (acc : Option Route × ℚ) path =>
      match calculatePathOutput st path amountIn with
      | none => acc
      | some route =>
        if route.totalAmountOut > acc.2 then (some route, route.totalAmountOut) else acc)
    (none, 0)).1

/-- One executed hop record of `executeRoute`'s result. -/
structure ExecutedHop where
  tokenId : Nat
  tokenName : String
  amountIn : ℚ
  amountOut : ℚ
  priceImpact : ℚ
deriving DecidableEq, Repr

/-- Result of `executeRoute`: the `Invalid route` rejection or the success
record. -/
inductive ExecResult where
  | invalidRoute
  | success (finalAmount : ℚ) (hops : List ExecutedHop) (totalPriceImpact : ℚ)
      (pathDescription : String)
deriving DecidableEq, Repr

/-- Whether an `ExecResult` is the success case. -/
def ExecResult.isSuccess : ExecResult → Bool
  | .invalidRoute => false
  | .success _ _ _ _ => true

/-- The hop loop of `executeRoute`: for each hop, mutate the live token's
reserves by the precomputed amounts and recompute `k`.  No validation of any
kind is performed per hop; a hop whose token id is absent from the state is
skipped (unreachable: hops reference live token objects). -/
def executeRouteLoop (st : St) : List Hop → List ExecutedHop → St × List ExecutedHop
  | [], executed => (st, executed)
  | hop :: rest, executed =>
    match findTokenById st.tokens hop.token.id with
    | none => executeRouteLoop st rest executed
    | some token =>
      let _amountInWithFee := hop.amountIn * (1 - (3 : ℚ) / 1000)
      let t1 := { token with pairReserve := token.pairReserve + hop.amountIn,
                             tokenReserve := token.tokenReserve - hop.amountOut }
      let t2 := { t1 with k := t1.tokenReserve * t1.pairReserve }
      let st' := { st with tokens := writeToken st.tokens token.id t2 }
      executeRouteLoop st' rest
        (executed ++ [{ tokenId := token.id, tokenName := token.name, amountIn := hop.amountIn,
                        amountOut := hop.amountOut, priceImpact := hop.priceImpact }])

/-- `executeRoute(route, amountIn, walletId)` (routing module): reject a
missing or empty route, otherwise commit every hop's precomputed reserve
mutation in order and report success.  `amountIn` and `walletId` are accepted
but never read by the source function. -/
def executeRoute (st : St) (route : Option Route) (_amountIn : ℚ) (_walletId : String) :
    ExecResult × St :=
  match route with
  | none => (.invalidRoute, st)
  | some r =>
    if r.hops.isEmpty then
      (.invalidRoute, st)
    else
      let (st', executed) := executeRouteLoop st r.hops []
      (.success r.totalAmountOut executed r.totalPriceImpact r.pathDescription, st')

/-- `calculateLiquidityDepth(token, visited)` (capital-tracking module): hops
from a USD/WPLS pool; `none` models the JavaScript `Infinity` (cycle, missing
pair, or no pair classification).  Fueled like the price resolver. -/
def calculateLiquidityDepth : Nat → St → Token → List Nat → Option Nat
  | 0, _, _, _ => none
  | fuel + 1, st, token, visited =>
    if visited.contains token.id then
      none
    else
      let visited' := token.id :: visited
      if token.pairType = PairType.USD ∨ token.pairType = PairType.WPLS then
        some 0
      else
        match token.pairType, token.pairedTokenId with
        | .TOKEN, some pid =>
          match findTokenById st.tokens pid with
          | none => none
          | some pairedToken =>
            match calculateLiquidityDepth fuel st pairedToken visited' with
            | none => none
            | some d => some (1 + d)
        | _, _ => none

/-- `calculateRealCapital(token)` (capital-tracking module): anchor-denominated
value of the pair reserve for USD/WPLS pools, zero otherwise.  Read-only. -/
def calculateRealCapital (st : St) (token : Token) : ℚ :=
  if token.pairReserve ≠ 0 then
    match token.pairType with
    | .USD => token.pairReserve
    | .WPLS => token.pairReserve * st.plsPrice
    | .TOKEN => 0
  else 0

/-- `calculateRealCapitalBacking(token, pairedToken, visited)` (capital-tracking
module): proportional share of the real capital ultimately backing the paired
token, scaled by the fraction of the paired token's total supply used in this
pool.  Read-only; fueled like the other recursions. -/
def calculateRealCapitalBacking : Nat → St → Token → Token → List Nat → ℚ
  | 0, _, _, _, _ => 0
  | fuel + 1, st, token, pairedToken, visited =>
    if visited.contains pairedToken.id then
      0
    else
      let visited' := pairedToken.id :: visited
      let pairedTokenUsed := token.pairReserve
      if pairedToken.totalSupply = 0 then
        0
      else
        let percentageUsed := pairedTokenUsed / pairedToken.totalSupply
        let realCapitalBehindPaired :=
          match pairedToken.pairType, pairedToken.pairedTokenId with
          | .USD, _ => pairedToken.pairReserve
          | .WPLS, _ => pairedToken.pairReserve * st.plsPrice
          | .TOKEN, some gid =>
            match findTokenById st.tokens gid with
            | some grandparentToken =>
              calculateRealCapitalBacking fuel st pairedToken grandparentToken visited'
            | none => 0
          | .TOKEN, none => 0
        realCapitalBehindPaired * percentageUsed

/-- `calculateDerivedCapital(token)` (capital-tracking module): for TOKEN-paired
funded pools, either the market valuation (pair reserve times the paired
token's resolved USD price — this resolution writes price caches) or the
real-capital-backing valuation.  Returns the value with the updated state. -/
def calculateDerivedCapital (st : St) (token : Token) (now : ℤ) : ℚ × St :=
  if token.pairType = PairType.TOKEN ∧ token.pairedTokenId ≠ none ∧ token.pairReserve ≠ 0 then
    match findPairedToken st.tokens token.pairedTokenId with
    | none => (0, st)
    | some pairedToken =>
      match st.capitalCalculationMode with
      | .market =>
        match calculateTokenPriceUSD (st.tokens.length + 2) st pairedToken [] now with
        | none => (0, st)
        | some (pairedTokenPrice, st', _) => (token.pairReserve * pairedTokenPrice, st')
      | .backing =>
        (calculateRealCapitalBacking (st.tokens.length + 2) st token pairedToken [], st)
  else (0, st)

/-- The `CapitalBreakdown` aggregate of `getCapitalBreakdown`. -/
structure CapitalBreakdown where
  realCapital : ℚ
  derivedCapital : ℚ
  totalDisplayedValue : ℚ
  leverageRat : ℚ
  averageDepth : ℚ
deriving DecidableEq, Repr

/-- The per-token accumulation loop of `getCapitalBreakdown`, iterating over
the live tokens by id and threading the price-cache mutations of the
market-mode derived-capital valuations. -/
def breakdownLoop (now : ℤ) : St → ℚ → ℚ → Nat → Nat → List Nat → (ℚ × ℚ × Nat × Nat) × St
  | st, real, derived, totalDepth, tokenCount, [] => ((real, derived, totalDepth, tokenCount), st)
  | st, real, derived, totalDepth, tokenCount, i :: rest =>
    match findTokenById st.tokens i with
    | none => breakdownLoop now st real derived totalDepth tokenCount rest
    | some t =>
      let r := calculateRealCapital st t
      let (d, st') := calculateDerivedCapital st t now
      let depth := calculateLiquidityDepth (st'.tokens.length + 2) st' t []
      match depth with
      | some dep => breakdownLoop now st' (real + r) (derived + d) (totalDepth + dep) (tokenCount + 1) rest
      | none => breakdownLoop now st' (real + r) (derived + d) totalDepth tokenCount rest

/-- `getCapitalBreakdown()` (capital-tracking module): system totals of real
and derived capital, the leverage ratio (`derivedCapital / realCapital`, zero
when no real capital), and the mean finite depth. -/
def getCapitalBreakdown (st : St) (now : ℤ) : CapitalBreakdown × St :=
  let ids := st.tokens.map (fun t => t.id)
  let ((real, derived, totalDepth, tokenCount), st') := breakdownLoop now st 0 0 0 0 ids
  let total := real + derived
  let lev := if real = 0 then 0 else derived / real
  let avg : ℚ := if tokenCount > 0 then (totalDepth : ℚ) / (tokenCount : ℚ) else 0
  ({ realCapital := real, derivedCapital := derived, totalDisplayedValue := total,
     leverageRat := lev, averageDepth := avg }, st')

/-- One entry of `calculateCascadeImpact`'s per-token impact list.  `depth`,
`newValue` and `changePercent` are `Option`s: `none` models the JavaScript
`Infinity`/NaN values that arise for pools with no finite path to an anchor
(`multiplier.pow(Infinity)` is not a finite decimal). -/
structure ImpactEntry where
  tokenId : Nat
  depth : Option Nat
  originalValue : ℚ
  newValue : Option ℚ
  changePercent : Option ℚ
deriving DecidableEq, Repr

/-- Build one impact entry exactly as the source does: the depth multiplier is
`multiplier^(depth+1)`, the new value scales the original by it, and the
change percent is `(newValue - originalValue)/originalValue × 100` (zero for a
zero original value). -/
def mkImpactEntry (i : Nat) (depth : Option Nat) (originalValue mult : ℚ) : ImpactEntry :=
  match depth with
  | some d =>
    let newValue := originalValue * mult ^ (d + 1)
    { tokenId := i, depth := some d, originalValue := originalValue,
      newValue := some newValue,
      changePercent :=
        if originalValue = 0 then some 0
        else some ((newValue - originalValue) / originalValue * 100) }
  | none =>
    { tokenId := i, depth := none, originalValue := originalValue,
      newValue := none,
      changePercent := if originalValue = 0 then some 0 else none }

/-- The per-token loop of `calculateCascadeImpact`, threading the price-cache
mutations of the valuations. -/
def cascadeEntries (now : ℤ) (mult : ℚ) : St → List Nat → List ImpactEntry × St
  | st, [] => ([], st)
  | st, i :: rest =>
    match findTokenById st.tokens i with
    | none => cascadeEntries now mult st rest
    | some t =>
      let depth := calculateLiquidityDepth (st.tokens.length + 2) st t []
      let r := calculateRealCapital st t
      let (d, st') := calculateDerivedCapital st t now
      let e := mkImpactEntry i depth (r + d) mult
      let (restEntries, st'') := cascadeEntries now mult st' rest
      (e :: restEntries, st'')

/-- Sort key used to model the source's sort by `Math.abs(changePercent)`
descending; the NaN (`none`) entries compare as zero, which is one of the
implementation-defined orders a JavaScript sort with a NaN comparator may
produce. -/
def impactKey (e : ImpactEntry) : ℚ :=
  match e.changePercent with
  | some q => |q|
  | none => 0

/-- Insertion into a list sorted by `impactKey` descending. -/
def insertImpactDesc (e : ImpactEntry) : List ImpactEntry → List ImpactEntry
  | [] => [e]
  | x :: xs => if impactKey e ≥ impactKey x then e :: x :: xs else x :: insertImpactDesc e xs

/-- Sort by `impactKey` descending (models `impacts.sort((a, b) => |b| - |a|)`). -/
def sortImpactsDesc : List ImpactEntry → List ImpactEntry
  | [] => []
  | x :: xs => insertImpactDesc x (sortImpactsDesc xs)

/-- Result of `calculateCascadeImpact`.  `averageImpact` is `none` when the
source would produce NaN (no tokens, or a non-finite change percent in the
sum). -/
structure CascadeResult where
  plsPriceChange : ℚ
  newPlsPrice : ℚ
  realCapitalChange : ℚ
  impacts : List ImpactEntry
  mostVulnerable : Option ImpactEntry
  averageImpact : Option ℚ
deriving DecidableEq, Repr

/-- `calculateCascadeImpact(percentageChange)` (capital-tracking module):
simulate a PLS price shock of `pct` percent.  The hypothetical new PLS price
is computed and reported but never written back to the state. -/
def calculateCascadeImpact (st : St) (pct : ℚ) (now : ℤ) : CascadeResult × St :=
  let mult := 1 + pct / 100
  let (ob, st1) := getCapitalBreakdown st now
  let newPlsPrice := st1.plsPrice * mult
  let newRealCapital := ob.realCapital * mult
  let (entries, st2) := cascadeEntries now mult st1 (st1.tokens.map (fun t => t.id))
  let impacts := sortImpactsDesc entries
  let avg : Option ℚ :=
    if impacts.isEmpty ∨ impacts.any (fun e => e.changePercent = none) then none
    else some ((impacts.foldl (fun s e => s + impactKey e) 0) / (impacts.length : ℚ))
  ({ plsPriceChange := pct, newPlsPrice := newPlsPrice,
     realCapitalChange := newRealCapital - ob.realCapital,
     impacts := impacts, mostVulnerable := impacts.head?, averageImpact := avg }, st2)

/-! ### Views and measures used by the proofs -/

/-- A token with its price cache erased.  Two states whose tokens agree after
`eraseCache` agree on every reserve, invariant, supply and balance field. -/
def eraseCache (t : Token) : Token :=
  { t with cachedUSDPrice := 0, priceLastUpdated := 0 }

/-- The fields the frame claims are about: identity, both reserves, the
constant-product invariant, and the LP supply. -/
def reservesView (t : Token) : Nat × ℚ × ℚ × ℚ × ℚ :=
  (t.id, t.tokenReserve, t.pairReserve, t.k, t.lpTotalSupply)

/-- States relate by `cacheEq` when they differ at most in price caches. -/
def cacheEq (st st' : St) : Prop :=
  st'.tokens.map eraseCache = st.tokens.map eraseCache ∧
  st'.plsPrice = st.plsPrice ∧
  st'.applySlippage = st.applySlippage ∧
  st'.maxRoutingHops = st.maxRoutingHops ∧
  st'.capitalCalculationMode = st.capitalCalculationMode

/-- Number of tokens of the list not yet in the visiting set: the termination
measure of the recursive price resolution. -/
def countUnvisited (ts : List Token) (vis : List Nat) : Nat :=
  (ts.filter (fun t => decide (t.id ∉ vis))).length

/-! ### Concrete states used by the counterexamples and witnesses -/

/-- Build a freshly-pooled token with the given identity, pairing and pool
numbers (cold price cache, default balances). -/
def mkTok (i : Nat) (nm : String) (pt : PairType) (pid : Option Nat) (tr pr ts : ℚ) : Token :=
  { id := i, name := nm, pairType := pt, pairedTokenId := pid, tokenReserve := tr,
    pairReserve := pr, k := tr * pr, lpTotalSupply := 0, totalSupply := ts,
    totalLiquidity := pr, plsBalance := 1000000, cachedUSDPrice := 0, priceLastUpdated := 0 }

/-- Build a state with the default settings (`plsPrice` 1, 3 routing hops,
market capital mode) and the given slippage flag. -/
def mkSt (ts : List Token) (slip : Bool) : St :=
  { tokens := ts, plsPrice := 1, applySlippage := slip, maxRoutingHops := 3,
    capitalCalculationMode := .market }

/-- Anchor pool X with reserves (1000, 1000) of the routing scenario. -/
def tokX : Token := mkTok 1 "X" .USD none 1000 1000 1000000

/-- Token-paired pool Y (paired with X) with reserves (1000, 500). -/
def tokY : Token := mkTok 2 "Y" .TOKEN (some 1) 1000 500 1000000

/-- The routing scenario state: X and Y only. -/
def c7St : St := mkSt [tokX, tokY] true

/-- WPLS-paired pool W with reserves (1000, 1000), cold cache. -/
def tokW : Token := mkTok 1 "W" .WPLS none 1000 1000 1000000

/-- Token-paired pool T (paired with W) with reserves (1000, 500), cold cache;
its pool ratio is 1/2, so with `plsPrice = 1` its correct USD price is 1/2. -/
def tokT : Token := mkTok 2 "T" .TOKEN (some 1) 1000 500 1000000

/-- The price-convergence scenario state: W and T, both caches stale. -/
def c3St : St := mkSt [tokW, tokT] true

/-- Token A: USD-paired, total supply 100, empty pool. -/
def tokA : Token := mkTok 1 "A" .USD none 0 0 100

/-- Token B: paired with A, total supply 1000, empty pool. -/
def tokB : Token := mkTok 2 "B" .TOKEN (some 1) 0 0 1000

/-- The available-supply scenario state: A and B with empty pools. -/
def c4St : St := mkSt [tokA, tokB] true

/-- First accepted operation: add (100 B, 60 A) to B's pool, locking 60 A. -/
def c4Step1 : Bool × St := addLiquidity c4St 2 100 60 10000

/-- Second accepted operation: add (50 A, 50 USD) to A's own pool. -/
def c4Step2 : Bool × St := addLiquidity c4Step1.2 1 50 50 10000

/-- A funded pool with reserves (1000, 1000). -/
def c2Tok : Token := mkTok 1 "T" .USD none 1000 1000 1000000

/-- State holding that pool with slippage disabled (ideal mode). -/
def c2St : St := mkSt [c2Tok] false

/-- State holding that pool with slippage enabled (realistic mode). -/
def c5St : St := mkSt [c2Tok] true

/-- A pool whose current token reserve (5) is smaller than a stale route hop's
precomputed output (50). -/
def c1Tok : Token := mkTok 1 "T1" .USD none 5 100 1000000

/-- State holding that pool. -/
def c1St : St := mkSt [c1Tok] true

/-- A stale single-hop route whose precomputed output (50) exceeds the pool's
current token reserve (5): an invalid hop at execution time. -/
def c1Route : Route :=
  { hops := [{ token := c1Tok, amountIn := 10, amountOut := 50, priceImpact := 0,
               pairType := .USD }],
    totalAmountOut := 50, totalPriceImpact := 0, pathDescription := "USD → T1" }

/-- A small funded pool with reserves (10, 10). -/
def c9Tok : Token := mkTok 1 "T" .USD none 10 10 1000000

/-- State holding that pool with slippage disabled. -/
def c9St : St := mkSt [c9Tok] false

/-- Token A of the circular pairing graph: paired with B. -/
def cycA : Token := mkTok 1 "A" .TOKEN (some 2) 100 100 1000000

/-- Token B of the circular pairing graph: paired with A. -/
def cycB : Token := mkTok 2 "B" .TOKEN (some 1) 100 100 1000000

/-- The two-token circular pairing state. -/
def cycSt : St := mkSt [cycA, cycB] true

/-- Depth-0 anchor pool of the cascade chain. -/
def c8t0 : Token := mkTok 1 "T0" .USD none 1000 1000 1000000

/-- Depth-1 pool of the cascade chain, paired with the anchor pool. -/
def c8t1 : Token := mkTok 2 "T1" .TOKEN (some 1) 1000 500 1000000

/-- Depth-2 pool of the cascade chain, paired with the depth-1 pool. -/
def c8t2 : Token := mkTok 3 "T2" .TOKEN (some 2) 1000 400 1000000

/-- The three-token cascade chain state. -/
def c8St : St := mkSt [c8t0, c8t1, c8t2] true

/-! ### Cache-erasure lemmas: the price resolver only writes price caches -/

theorem eraseCache_setTokenCache (i : Nat) (p : ℚ) (now : ℤ) :
    ∀ ts : List Token, (setTokenCache ts i p now).map eraseCache = ts.map eraseCache
  | [] => rfl
  | t :: ts => by
    have h1 : eraseCache (if t.id = i then { t with cachedUSDPrice := p, priceLastUpdated := now } else t) = eraseCache t := by
      split <;> rfl
    have h2 := eraseCache_setTokenCache i p now ts
    simp only [setTokenCache, List.map_cons, List.map_map, Function.comp] at *
    rw [h1, h2]

theorem cacheEq_refl (st : St) : cacheEq st st :=
  ⟨rfl, rfl, rfl, rfl, rfl⟩

theorem cacheEq_trans {st1 st2 st3 : St} (h12 : cacheEq st1 st2) (h23 : cacheEq st2 st3) :
    cacheEq st1 st3 :=
  ⟨h23.1.trans h12.1, h23.2.1.trans h12.2.1, h23.2.2.1.trans h12.2.2.1,
   h23.2.2.2.1.trans h12.2.2.2.1, h23.2.2.2.2.trans h12.2.2.2.2⟩

theorem cacheEq_setTokenCache (st : St) (i : Nat) (p : ℚ) (now : ℤ) :
    cacheEq st { st with tokens := setTokenCache st.tokens i p now } :=
  ⟨eraseCache_setTokenCache i p now st.tokens, rfl, rfl, rfl, rfl⟩

theorem cacheEq_length {st st' : St} (h : cacheEq st st') :
    st'.tokens.length = st.tokens.length := by
  have := congrArg List.length h.1
  simpa using this

/-- The recursive price resolution touches only price caches: every state it
returns is `cacheEq` to its input state. -/
theorem calc_cacheEq : ∀ (fuel : Nat) (st : St) (t : Token) (vis : List Nat) (now : ℤ)
    {p : ℚ} {st' : St} {vis' : List Nat},
    calculateTokenPriceUSD fuel st t vis now = some (p, st', vis') → cacheEq st st'
  | 0, st, t, vis, now, p, st', vis' => by
    intro h
    simp [calculateTokenPriceUSD] at h
  | fuel + 1, st, t, vis, now, p, st', vis' => by
    intro h
    simp only [calculateTokenPriceUSD] at h
    split at h
    · cases h
      exact cacheEq_refl st
    · split at h
      · cases h
        exact cacheEq_refl st
      · split at h
        · cases h
          exact cacheEq_setTokenCache st t.id 0 now
        · split at h
          · cases h
            exact cacheEq_setTokenCache st t.id _ now
          · cases h
            exact cacheEq_setTokenCache st t.id _ now
          · split at h
            · cases h
              exact cacheEq_setTokenCache st t.id 0 now
            · split at h
              · cases h
              · rename_i pp st2 vis2 heq
                cases h
                exact cacheEq_trans (calc_cacheEq fuel st _ _ now heq)
                  (cacheEq_setTokenCache st2 t.id _ now)

/-! ### Fuel-sufficiency lemmas for the price resolver -/

theorem countUnvisited_le_length (vis : List Nat) :
    ∀ ts : List Token, countUnvisited ts vis ≤ ts.length := by
  intro ts
  exact List.length_filter_le _ ts

theorem countUnvisited_cons_le (i : Nat) (vis : List Nat) :
    ∀ ts : List Token, countUnvisited ts (i :: vis) ≤ countUnvisited ts vis
  | [] => Nat.le_refl _
  | t :: ts => by
    have ih := countUnvisited_cons_le i vis ts
    simp only [countUnvisited, List.filter_cons] at *
    by_cases hv : t.id ∈ vis
    · have h1 : decide (t.id ∉ vis) = false := by simp [hv]
      have h2 : decide (t.id ∉ i :: vis) = false := by simp [List.mem_cons, hv]
      rw [h1, h2]
      simpa using ih
    · by_cases hi : t.id = i
      · have h1 : decide (t.id ∉ vis) = true := by simp [hv]
        have h2 : decide (t.id ∉ i :: vis) = false := by simp [List.mem_cons, hi]
        rw [h1, h2]
        simp only [eq_self_iff_true, if_true, Bool.false_eq_true, if_false, List.length_cons]
        omega
      · have h1 : decide (t.id ∉ vis) = true := by simp [hv]
        have h2 : decide (t.id ∉ i :: vis) = true := by simp [List.mem_cons, hi, hv]
        rw [h1, h2]
        simp only [eq_self_iff_true, if_true, List.length_cons]
        omega

theorem countUnvisited_cons_lt (i : Nat) (vis : List Nat) (hvis : i ∉ vis) :
    ∀ ts : List Token, (∃ u ∈ ts, u.id = i) →
      countUnvisited ts (i :: vis) < countUnvisited ts vis
  | [], h => by simp at h
  | t :: ts, h => by
    by_cases hi : t.id = i
    · have hv : t.id ∉ vis := by rw [hi]; exact hvis
      have h1 : decide (t.id ∉ vis) = true := by simp [hv]
      have h2 : decide (t.id ∉ i :: vis) = false := by simp [List.mem_cons, hi]
      have hle := countUnvisited_cons_le i vis ts
      simp only [countUnvisited, List.filter_cons] at *
      rw [h1, h2]
      simp only [eq_self_iff_true, if_true, Bool.false_eq_true, if_false, List.length_cons]
      omega
    · obtain ⟨u, hu, hui⟩ := h
      rcases List.mem_cons.mp hu with rfl | hu'
      · exact absurd hui hi
      · have ih := countUnvisited_cons_lt i vis hvis ts ⟨u, hu', hui⟩
        simp only [countUnvisited, List.filter_cons] at *
        by_cases hv : t.id ∈ vis
        · have h1 : decide (t.id ∉ vis) = false := by simp [hv]
          have h2 : decide (t.id ∉ i :: vis) = false := by simp [List.mem_cons, hv]
          rw [h1, h2]
          simpa using ih
        · have h1 : decide (t.id ∉ vis) = true := by simp [hv]
          have h2 : decide (t.id ∉ i :: vis) = true := by simp [List.mem_cons, hi, hv]
          rw [h1, h2]
          simp only [eq_self_iff_true, if_true, List.length_cons]
          omega

theorem findTokenById_eq_some_id {ts : List Token} {i : Nat} {t : Token}
    (h : findTokenById ts i = some t) : t.id = i := by
  have := List.find?_some h
  simpa using this

theorem findTokenById_mem {ts : List Token} {i : Nat} {t : Token}
    (h : findTokenById ts i = some t) : t ∈ ts :=
  List.mem_of_find?_eq_some h

theorem findPairedToken_mem {ts : List Token} {pid : Option Nat} {pt : Token}
    (h : findPairedToken ts pid = some pt) : pt ∈ ts := by
  cases pid with
  | none => simp [findPairedToken] at h
  | some i => exact findTokenById_mem h

/-- With fuel exceeding the number of unvisited tokens, the price resolution of
a token whose id occurs in the state cannot run out of fuel. -/
theorem calc_isSome_of_mem : ∀ (fuel : Nat) (st : St) (t : Token) (vis : List Nat) (now : ℤ),
    (∃ u ∈ st.tokens, u.id = t.id) → countUnvisited st.tokens vis < fuel →
    (calculateTokenPriceUSD fuel st t vis now).isSome = true
  | 0, _, _, _, _, _, hf => by omega
  | fuel + 1, st, t, vis, now, hmem, hf => by
    simp only [calculateTokenPriceUSD]
    split
    · rfl
    · rename_i hvis
      split
      · rfl
      · split
        · rfl
        · split
          · rfl
          · rfl
          · split
            · rfl
            · rename_i pt hfind
              have hptmem : pt ∈ st.tokens := findPairedToken_mem hfind
              have hnot : t.id ∉ vis := by simpa using hvis
              have hlt := countUnvisited_cons_lt t.id vis hnot st.tokens hmem
              have hcnt : countUnvisited st.tokens (t.id :: vis) < fuel := by omega
              have hrec := calc_isSome_of_mem fuel st pt (t.id :: vis) now
                ⟨pt, hptmem, rfl⟩ hcnt
              cases hres : calculateTokenPriceUSD fuel st pt (t.id :: vis) now with
              | none => rw [hres] at hrec; simp at hrec
              | some val =>
                obtain ⟨pp, st2, vis2⟩ := val
                rfl

/-- With fuel at least `tokens.length + 2` the price resolution of any token
(whether or not its id occurs in the state) cannot run out of fuel. -/
theorem calc_isSome_ge (st : St) (t : Token) (vis : List Nat) (now : ℤ) :
    ∀ fuel : Nat, st.tokens.length + 2 ≤ fuel →
    (calculateTokenPriceUSD fuel st t vis now).isSome = true
  | 0, h => by omega
  | fuel + 1, h => by
    simp only [calculateTokenPriceUSD]
    split
    · rfl
    · split
      · rfl
      · split
        · rfl
        · split
          · rfl
          · rfl
          · split
            · rfl
            · rename_i pt hfind
              have hptmem : pt ∈ st.tokens := findPairedToken_mem hfind
              have hle := countUnvisited_le_length (t.id :: vis) st.tokens
              have hcnt : countUnvisited st.tokens (t.id :: vis) < fuel := by omega
              have hrec := calc_isSome_of_mem fuel st pt (t.id :: vis) now
                ⟨pt, hptmem, rfl⟩ hcnt
              cases hres : calculateTokenPriceUSD fuel st pt (t.id :: vis) now with
              | none => rw [hres] at hrec; simp at hrec
              | some val =>
                obtain ⟨pp, st2, vis2⟩ := val
                rfl

/-- The fuel used at every call site of the embedding is sufficient. -/
theorem calc_top_isSome (st : St) (t : Token) (vis : List Nat) (now : ℤ) :
    (calculateTokenPriceUSD (st.tokens.length + 2) st t vis now).isSome = true :=
  calc_isSome_ge st t vis now _ (Nat.le_refl _)

/-- Token lookups in cache-equal states agree up to cache erasure. -/
theorem findTokenById_congr_eraseCache : ∀ (ts1 ts2 : List Token),
    ts1.map eraseCache = ts2.map eraseCache → ∀ i : Nat,
    (findTokenById ts1 i).map eraseCache = (findTokenById ts2 i).map eraseCache
  | [], [], _, _ => rfl
  | [], _ :: _, h, _ => by simp at h
  | _ :: _, [], h, _ => by simp at h
  | t1 :: ts1, t2 :: ts2, h, i => by
    simp only [List.map_cons, List.cons.injEq] at h
    obtain ⟨h1, h2⟩ := h
    have hid : t1.id = t2.id := by
      have h0 := congrArg Token.id h1
      simpa [eraseCache] using h0
    simp only [findTokenById, List.find?]
    by_cases hp : (t1.id == i) = true
    · have hp2 : (t2.id == i) = true := by rw [← hid]; exact hp
      rw [hp, hp2]
      simp [h1]
    · have hp1 : (t1.id == i) = false := by simpa using hp
      have hp2 : (t2.id == i) = false := by rw [← hid]; exact hp1
      rw [hp1, hp2]
      exact findTokenById_congr_eraseCache ts1 ts2 h2 i

/-- Looking up an id that resolves in `st` still resolves, up to cache
erasure, in any cache-equal state. -/
theorem find_cacheEq_some {st st' : St} (h : cacheEq st st') {i : Nat} {t : Token}
    (hf : findTokenById st.tokens i = some t) :
    ∃ t', findTokenById st'.tokens i = some t' ∧ eraseCache t' = eraseCache t := by
  have hc := findTokenById_congr_eraseCache st'.tokens st.tokens h.1 i
  rw [hf] at hc
  cases hfind : findTokenById st'.tokens i with
  | none => rw [hfind] at hc; simp at hc
  | some t' =>
    rw [hfind] at hc
    exact ⟨t', rfl, by simpa using hc⟩

/-- After writing token `tnew` (with the right id) over a resolvable id, the
lookup returns `tnew`. -/
theorem findTokenById_writeToken : ∀ (ts : List Token) (i : Nat) (tnew t : Token),
    findTokenById ts i = some t → tnew.id = i →
    findTokenById (writeToken ts i tnew) i = some tnew
  | [], _, _, _, h, _ => by simp [findTokenById] at h
  | x :: ts, i, tnew, t, h, hid => by
    simp only [writeToken, List.map_cons]
    by_cases hx : x.id = i
    · rw [if_pos hx]
      have hp : (tnew.id == i) = true := by simp [hid]
      simp only [findTokenById, List.find?]
      rw [hp]
    · rw [if_neg hx]
      have hp : (x.id == i) = false := by simp [hx]
      have h' : findTokenById ts i = some t := by
        simp only [findTokenById, List.find?] at h
        rwa [hp] at h
      have ih := findTokenById_writeToken ts i tnew t h' hid
      simp only [findTokenById, writeToken] at ih ⊢
      simp only [List.find?]
      rw [hp]
      exact ih

/-- Cache-erased equality of tokens pins every non-cache field. -/
theorem eraseCache_fields {t1 t2 : Token} (h : eraseCache t1 = eraseCache t2) :
    t1.id = t2.id ∧ t1.pairType = t2.pairType ∧ t1.pairedTokenId = t2.pairedTokenId ∧
    t1.tokenReserve = t2.tokenReserve ∧ t1.pairReserve = t2.pairReserve ∧
    t1.k = t2.k ∧ t1.lpTotalSupply = t2.lpTotalSupply ∧ t1.totalSupply = t2.totalSupply := by
  cases t1
  cases t2
  simp only [eraseCache, Token.mk.injEq] at h
  simp_all

/-- Cache-erased equality of token lists pins the reserves view. -/
theorem reservesView_congr : ∀ (ts1 ts2 : List Token),
    ts1.map eraseCache = ts2.map eraseCache → ts1.map reservesView = ts2.map reservesView
  | [], [], _ => rfl
  | [], _ :: _, h => by simp at h
  | _ :: _, [], h => by simp at h
  | t1 :: ts1, t2 :: ts2, h => by
    simp only [List.map_cons, List.cons.injEq] at h ⊢
    obtain ⟨h1, h2⟩ := h
    obtain ⟨hid, _, _, htr, hpr, hk, hlp, _⟩ := eraseCache_fields h1
    exact ⟨by simp [reservesView, hid, htr, hpr, hk, hlp],
      reservesView_congr ts1 ts2 h2⟩

/-- The closed form of `calculateSwapOutput` at the default 0.3% fee. -/
theorem calculateSwapOutput_eq (a x y : ℚ) :
    calculateSwapOutput a x y (3 / 10) =
      y * (a * (997 / 1000)) / (x + a * (997 / 1000)) := by
  unfold calculateSwapOutput
  norm_num

/-- For a funded pool and a positive input, the constant-product swap with fee
never decreases the product of the reserves. -/
theorem swap_product_ge (x y a : ℚ) (hx : 0 < x) (hy : 0 < y) (ha : 0 < a) :
    x * y ≤ (y - calculateSwapOutput a x y (3 / 10)) * (x + a) := by
  rw [calculateSwapOutput_eq]
  set f := a * (997 / 1000) with hfdef
  have hf : 0 < f := by rw [hfdef]; positivity
  have hfa : f ≤ a := by rw [hfdef]; nlinarith
  have hxf : 0 < x + f := by linarith
  have hkey : y - y * f / (x + f) = y * x / (x + f) := by
    field_simp
    ring
  rw [hkey, div_mul_eq_mul_div, le_div_iff₀ hxf]
  nlinarith [mul_pos hx hy]

/-- `buyCommit` keeps the token's identity. -/
theorem buyCommit_id (t : Token) (a o : ℚ) : (buyCommit t a o).id = t.id := rfl

/-- A buy with positive input on an empty pool is rejected before any state
change. -/
theorem executeBuy_fail_empty {st : St} {tid : Nat} {a : ℚ} {now : ℤ} {t : Token}
    (hfind : findTokenById st.tokens tid = some t) (ha : 0 < a)
    (hres : t.pairReserve = 0 ∨ t.tokenReserve = 0) :
    executeBuy st tid a now = (.failure "No liquidity in pool", st) := by
  simp only [executeBuy, hfind]
  rw [if_neg (not_le.mpr ha), if_pos hres]

/-- A slippage-mode buy whose constant-product output would drain the pool is
rejected before any state change. -/
theorem executeBuy_slip_fail_drain {st : St} {tid : Nat} {a : ℚ} {now : ℤ} {t : Token}
    (hfind : findTokenById st.tokens tid = some t)
    (hs : st.applySlippage = true) (ha : 0 < a)
    (hres : ¬ (t.pairReserve = 0 ∨ t.tokenReserve = 0))
    (hguard : calculateSwapOutput a t.pairReserve t.tokenReserve (3 / 10) ≥ t.tokenReserve) :
    executeBuy st tid a now = (.failure "Insufficient liquidity for this trade", st) := by
  simp only [executeBuy, hfind]
  rw [if_neg (not_le.mpr ha), if_neg hres, if_pos hs, if_pos hguard]

/-- Characterization of an accepted slippage-mode buy: the result is a success
carrying the constant-product output and its price impact, and the result
state is, up to price caches, the input state with the reserve commit written
onto the bought token. -/
theorem executeBuy_slip_success {st : St} {tid : Nat} {a : ℚ} {now : ℤ} {t : Token}
    (hfind : findTokenById st.tokens tid = some t)
    (hs : st.applySlippage = true) (ha : 0 < a)
    (hres : ¬ (t.pairReserve = 0 ∨ t.tokenReserve = 0))
    (hguard : ¬ calculateSwapOutput a t.pairReserve t.tokenReserve (3 / 10) ≥ t.tokenReserve) :
    ∃ np st2,
      executeBuy st tid a now =
        (.success (calculateSwapOutput a t.pairReserve t.tokenReserve (3 / 10))
          (calculatePriceImpact t a (calculateSwapOutput a t.pairReserve t.tokenReserve (3 / 10)))
          true np, st2) ∧
      cacheEq
        { st with tokens := (writeToken st.tokens t.id
            (buyCommit t a (calculateSwapOutput a t.pairReserve t.tokenReserve (3 / 10)))) }
        st2 := by
  simp only [executeBuy, hfind]
  rw [if_neg (not_le.mpr ha), if_neg hres, if_pos hs, if_neg hguard]
  simp only [finishBuy]
  set out := calculateSwapOutput a t.pairReserve t.tokenReserve (3 / 10) with hout
  set st1 : St := ({ st with tokens := writeToken st.tokens t.id (buyCommit t a out) } : St) with hst1
  have hsome := calc_top_isSome st1 (buyCommit t a out) [] now
  cases heq : calculateTokenPriceUSD (st1.tokens.length + 2) st1 (buyCommit t a out) [] now with
  | none => rw [heq] at hsome; simp at hsome
  | some val =>
    obtain ⟨np, st2, vis2⟩ := val
    refine ⟨np, st2, ?_, ?_⟩
    · rw [hs]
    · exact calc_cacheEq _ _ _ _ _ heq

/-- An ideal-mode (no slippage) buy whose spot output would drain the pool is
rejected before any state change. -/
theorem executeBuy_ideal_fail_drain {st : St} {tid : Nat} {a : ℚ} {now : ℤ} {t : Token}
    (hfind : findTokenById st.tokens tid = some t)
    (hs : st.applySlippage = false) (ha : 0 < a)
    (hres : ¬ (t.pairReserve = 0 ∨ t.tokenReserve = 0))
    (hguard : a / (t.pairReserve / t.tokenReserve) ≥ t.tokenReserve) :
    executeBuy st tid a now = (.failure "Insufficient liquidity for this trade", st) := by
  simp only [executeBuy, hfind]
  rw [if_neg (not_le.mpr ha), if_neg hres, if_neg (by simp [hs]), if_pos hguard]

/-- Characterization of an accepted ideal-mode buy: the output is the input
divided by the spot price and the reported price impact is zero. -/
theorem executeBuy_ideal_success {st : St} {tid : Nat} {a : ℚ} {now : ℤ} {t : Token}
    (hfind : findTokenById st.tokens tid = some t)
    (hs : st.applySlippage = false) (ha : 0 < a)
    (hres : ¬ (t.pairReserve = 0 ∨ t.tokenReserve = 0))
    (hguard : ¬ a / (t.pairReserve / t.tokenReserve) ≥ t.tokenReserve) :
    ∃ np st2,
      executeBuy st tid a now =
        (.success (a / (t.pairReserve / t.tokenReserve)) 0 false np, st2) ∧
      cacheEq
        { st with tokens := (writeToken st.tokens t.id
            (buyCommit t a (a / (t.pairReserve / t.tokenReserve)))) }
        st2 := by
  simp only [executeBuy, hfind]
  rw [if_neg (not_le.mpr ha), if_neg hres, if_neg (by simp [hs]), if_neg hguard]
  simp only [finishBuy]
  set out := a / (t.pairReserve / t.tokenReserve) with hout
  set st1 : St := ({ st with tokens := writeToken st.tokens t.id (buyCommit t a out) } : St) with hst1
  have hsome := calc_top_isSome st1 (buyCommit t a out) [] now
  cases heq : calculateTokenPriceUSD (st1.tokens.length + 2) st1 (buyCommit t a out) [] now with
  | none => rw [heq] at hsome; simp at hsome
  | some val =>
    obtain ⟨np, st2, vis2⟩ := val
    refine ⟨np, st2, ?_, ?_⟩
    · rw [hs]
    · exact calc_cacheEq _ _ _ _ _ heq

/-! ### Claim C6 -/

/-- C6: for every pairing graph (cyclic ones included) the recursive price
resolution terminates — it cannot run out of fuel once the fuel exceeds the
number of tokens not yet in the visiting set, so the number of recursive calls
is linear in the graph size — and a resolution entered on a token already in
the visiting set returns price 0 immediately without touching the state.  In
the concrete two-token cycle (A paired with B, B paired with A) both tokens
resolve to price 0. -/
theorem claim_C6_cycle_termination (st : St) (t : Token) (vis : List Nat) (now : ℤ) (fuel : Nat)
    (hmem : ∃ u ∈ st.tokens, u.id = t.id)
    (hfuel : countUnvisited st.tokens vis < fuel) :
    (calculateTokenPriceUSD fuel st t vis now).isSome = true ∧
    (t.id ∈ vis → calculateTokenPriceUSD fuel st t vis now = some (0, st, vis)) ∧
    (calculateTokenPriceUSD 4 cycSt cycA [] 10000).map (fun r => r.1) = some 0 ∧
    (calculateTokenPriceUSD 4 cycSt cycB [] 10000).map (fun r => r.1) = some 0 := by
  refine ⟨calc_isSome_of_mem fuel st t vis now hmem hfuel, ?_,
    by with_unfolding_all rfl, by with_unfolding_all rfl⟩
  intro hv
  cases fuel with
  | zero => omega
  | succ f =>
    simp only [calculateTokenPriceUSD]
    rw [if_pos (by simpa using hv)]

/-- Witness for C6 on the concrete cycle, with a non-empty visiting set. -/
theorem claim_C6_cycle_termination_witness :
    (∃ u ∈ cycSt.tokens, u.id = cycA.id) ∧
    countUnvisited cycSt.tokens [1] < 3 ∧
    ((calculateTokenPriceUSD 3 cycSt cycA [1] 10000).isSome = true ∧
     (cycA.id ∈ [1] → calculateTokenPriceUSD 3 cycSt cycA [1] 10000 = some (0, cycSt, [1])) ∧
     (calculateTokenPriceUSD 4 cycSt cycA [] 10000).map (fun r => r.1) = some 0 ∧
     (calculateTokenPriceUSD 4 cycSt cycB [] 10000).map (fun r => r.1) = some 0) :=
  ⟨⟨cycA, by with_unfolding_all exact List.mem_cons_self cycA [cycB], rfl⟩, by decide,
    claim_C6_cycle_termination cycSt cycA [1] 10000 3
      ⟨cycA, by with_unfolding_all exact List.mem_cons_self cycA [cycB], rfl⟩ (by decide)⟩

/-! ### Claim C2 -/

/-- C2 (counterexample): with the global `applySlippage` flag off, a swap of
100 on the funded pool (1000, 1000) is accepted (success) yet strictly
decreases the product of the reserves: 990000 < 1000000.  The claim as
stated — every accepted swap on a funded pool keeps
`tokenReserve × pairReserve` from decreasing — is therefore false of the
code. -/
theorem claim_C2_counterexample :
    0 < c2Tok.tokenReserve ∧ 0 < c2Tok.pairReserve ∧
    ((executeBuy c2St 1 100 0).1).isSuccess = true ∧
    (findTokenById (executeBuy c2St 1 100 0).2.tokens 1).map
      (fun t => t.tokenReserve * t.pairReserve) = some 990000 ∧
    (990000 : ℚ) < c2Tok.tokenReserve * c2Tok.pairReserve := by
  refine ⟨?_, ?_, ?_, ?_, ?_⟩
  · apply of_decide_eq_true
    with_unfolding_all rfl
  · apply of_decide_eq_true
    with_unfolding_all rfl
  · with_unfolding_all rfl
  · with_unfolding_all rfl
  · apply of_decide_eq_true
    with_unfolding_all rfl

/-- C2 (amended): for every accepted swap executed with slippage enabled
(`applySlippage = true`, the constant-product path with the 0.3% fee) on a
funded pool, the product of the reserves after the swap is at least the
product before it. -/
theorem claim_C2_k_non_decreasing (st : St) (tid : Nat) (a : ℚ) (now : ℤ) (t : Token)
    (hfind : findTokenById st.tokens tid = some t)
    (hs : st.applySlippage = true) (ha : 0 < a)
    (hx : 0 < t.pairReserve) (hy : 0 < t.tokenReserve)
    (hacc : ((executeBuy st tid a now).1).isSuccess = true) :
    ∃ t', findTokenById (executeBuy st tid a now).2.tokens tid = some t' ∧
      t.tokenReserve * t.pairReserve ≤ t'.tokenReserve * t'.pairReserve := by
  have hres : ¬ (t.pairReserve = 0 ∨ t.tokenReserve = 0) := by
    push_neg
    exact ⟨ne_of_gt hx, ne_of_gt hy⟩
  by_cases hguard : calculateSwapOutput a t.pairReserve t.tokenReserve (3 / 10) ≥ t.tokenReserve
  · rw [executeBuy_slip_fail_drain hfind hs ha hres hguard] at hacc
    simp [BuyResult.isSuccess] at hacc
  · obtain ⟨np, st2, heq, hceq⟩ := executeBuy_slip_success hfind hs ha hres hguard
    rw [heq]
    have hid : t.id = tid := findTokenById_eq_some_id hfind
    set out := calculateSwapOutput a t.pairReserve t.tokenReserve (3 / 10) with hout
    have hcid : (buyCommit t a out).id = tid := by rw [buyCommit_id, hid]
    have hfind1 : findTokenById (writeToken st.tokens t.id (buyCommit t a out)) tid =
        some (buyCommit t a out) := by
      rw [hid]
      exact findTokenById_writeToken st.tokens tid (buyCommit t a out) t hfind hcid
    obtain ⟨t', hfind2, herase⟩ := find_cacheEq_some hceq hfind1
    refine ⟨t', hfind2, ?_⟩
    obtain ⟨_, _, _, htr, hpr, _, _, _⟩ := eraseCache_fields herase
    rw [htr, hpr]
    have hcommitT : (buyCommit t a out).tokenReserve = t.tokenReserve - out := rfl
    have hcommitP : (buyCommit t a out).pairReserve = t.pairReserve + a := rfl
    rw [hcommitT, hcommitP]
    have hprod := swap_product_ge t.pairReserve t.tokenReserve a hx hy ha
    rw [← hout] at hprod
    nlinarith [hprod]

/-- Witness for the amended C2 on the funded pool (1000, 1000) with input
100. -/
theorem claim_C2_k_non_decreasing_witness :
    findTokenById c5St.tokens 1 = some c2Tok ∧
    c5St.applySlippage = true ∧ (0 : ℚ) < 100 ∧
    0 < c2Tok.pairReserve ∧ 0 < c2Tok.tokenReserve ∧
    ((executeBuy c5St 1 100 0).1).isSuccess = true ∧
    (∃ t', findTokenById (executeBuy c5St 1 100 0).2.tokens 1 = some t' ∧
      c2Tok.tokenReserve * c2Tok.pairReserve ≤ t'.tokenReserve * t'.pairReserve) :=
  ⟨by with_unfolding_all rfl, rfl, by norm_num,
    by apply of_decide_eq_true; with_unfolding_all rfl,
    by apply of_decide_eq_true; with_unfolding_all rfl,
    by with_unfolding_all rfl,
    claim_C2_k_non_decreasing c5St 1 100 0 c2Tok (by with_unfolding_all rfl) rfl (by norm_num)
      (by apply of_decide_eq_true; with_unfolding_all rfl)
      (by apply of_decide_eq_true; with_unfolding_all rfl)
      (by with_unfolding_all rfl)⟩

/-! ### Claim C5 -/

/-- C5: an `executeBuy` swap in the constant-product mode scales the input by
`1 - 0.003` and returns `outputReserve × amountInWithFee / (inputReserve +
amountInWithFee)`; it fails when the pool is empty and when the output would
reach the output reserve.  The route simulator's `simulateSwap` uses the same
fee and formula and returns null exactly on an empty pool. -/
theorem claim_C5_swap_formula (st : St) (tid : Nat) (a : ℚ) (now : ℤ) (t : Token)
    (hfind : findTokenById st.tokens tid = some t)
    (hs : st.applySlippage = true) (ha : 0 < a) :
    (t.pairReserve = 0 ∨ t.tokenReserve = 0 →
      (executeBuy st tid a now).1 = .failure "No liquidity in pool") ∧
    (¬ (t.pairReserve = 0 ∨ t.tokenReserve = 0) →
      (calculateSwapOutput a t.pairReserve t.tokenReserve (3 / 10) ≥ t.tokenReserve →
        (executeBuy st tid a now).1 = .failure "Insufficient liquidity for this trade") ∧
      (calculateSwapOutput a t.pairReserve t.tokenReserve (3 / 10) < t.tokenReserve →
        ∃ pi np, (executeBuy st tid a now).1 =
          .success (t.tokenReserve * (a * (1 - 3 / 1000)) / (t.pairReserve + a * (1 - 3 / 1000)))
            pi true np)) ∧
    (∀ ity it, t.tokenReserve = 0 ∨ t.pairReserve = 0 → simulateSwap t a ity it = none) ∧
    (∀ ity it r, simulateSwap t a ity it = some r →
      r.amountOut =
        t.tokenReserve * (a * (1 - 3 / 1000)) / (t.pairReserve + a * (1 - 3 / 1000))) := by
  have hform : ∀ x y : ℚ, calculateSwapOutput a x y (3 / 10) =
      y * (a * (1 - 3 / 1000)) / (x + a * (1 - 3 / 1000)) := by
    intro x y
    rw [calculateSwapOutput_eq]
    norm_num
  refine ⟨?_, ?_, ?_, ?_⟩
  · intro hres
    rw [executeBuy_fail_empty hfind ha hres]
  · intro hres
    constructor
    · intro hguard
      rw [executeBuy_slip_fail_drain hfind hs ha hres hguard]
    · intro hguard
      obtain ⟨np, st2, heq, _⟩ :=
        executeBuy_slip_success hfind hs ha hres (not_le.mpr hguard)
      rw [heq]
      exact ⟨_, np, by rw [← hform]⟩
  · intro ity it hres
    simp only [simulateSwap]
    rw [if_pos hres]
  · intro ity it r hr
    simp only [simulateSwap] at hr
    split at hr
    · cases hr
    · cases hr
      rfl

/-- Witness for C5 on the funded pool (1000, 1000) with input 100. -/
theorem claim_C5_swap_formula_witness :
    findTokenById c5St.tokens 1 = some c2Tok ∧
    c5St.applySlippage = true ∧ (0 : ℚ) < 100 ∧
    ((c2Tok.pairReserve = 0 ∨ c2Tok.tokenReserve = 0 →
      (executeBuy c5St 1 100 0).1 = .failure "No liquidity in pool") ∧
    (¬ (c2Tok.pairReserve = 0 ∨ c2Tok.tokenReserve = 0) →
      (calculateSwapOutput 100 c2Tok.pairReserve c2Tok.tokenReserve (3 / 10) ≥ c2Tok.tokenReserve →
        (executeBuy c5St 1 100 0).1 = .failure "Insufficient liquidity for this trade") ∧
      (calculateSwapOutput 100 c2Tok.pairReserve c2Tok.tokenReserve (3 / 10) < c2Tok.tokenReserve →
        ∃ pi np, (executeBuy c5St 1 100 0).1 =
          .success (c2Tok.tokenReserve * (100 * (1 - 3 / 1000)) /
              (c2Tok.pairReserve + 100 * (1 - 3 / 1000)))
            pi true np)) ∧
    (∀ ity it, c2Tok.tokenReserve = 0 ∨ c2Tok.pairReserve = 0 →
      simulateSwap c2Tok 100 ity it = none) ∧
    (∀ ity it r, simulateSwap c2Tok 100 ity it = some r →
      r.amountOut =
        c2Tok.tokenReserve * (100 * (1 - 3 / 1000)) /
          (c2Tok.pairReserve + 100 * (1 - 3 / 1000)))) :=
  ⟨by with_unfolding_all rfl, rfl, by norm_num,
    claim_C5_swap_formula c5St 1 100 0 c2Tok (by with_unfolding_all rfl) rfl (by norm_num)⟩

/-! ### Claim C9 -/

/-- C9 (counterexample): with `applySlippage` off, the funded pool (10, 10)
and input 20 do not yield the spot output 20; the buy fails with an
insufficient-liquidity error, so the flag-off mode does not return the spot
output for every funded pool. -/
theorem claim_C9_counterexample :
    c9Tok.tokenReserve ≠ 0 ∧ c9Tok.pairReserve ≠ 0 ∧
    c9St.applySlippage = false ∧
    (executeBuy c9St 1 20 0).1 = .failure "Insufficient liquidity for this trade" ∧
    ((executeBuy c9St 1 20 0).1).isSuccess = false := by
  refine ⟨?_, ?_, rfl, ?_, ?_⟩
  · apply of_decide_eq_true
    with_unfolding_all rfl
  · apply of_decide_eq_true
    with_unfolding_all rfl
  · with_unfolding_all rfl
  · with_unfolding_all rfl

/-- C9 (amended): with `applySlippage = false`, `executeBuy` bypasses the fee
and the constant-product formula: on a funded pool whose spot-price output
`amountIn / (pairReserve / tokenReserve)` is below the token reserve it
succeeds with exactly that output and a reported price impact of zero; when
the spot output reaches the token reserve it fails with the
insufficient-liquidity error. -/
theorem claim_C9_ideal_spot_swap (st : St) (tid : Nat) (a : ℚ) (now : ℤ) (t : Token)
    (hfind : findTokenById st.tokens tid = some t)
    (hs : st.applySlippage = false) (ha : 0 < a)
    (hx : t.pairReserve ≠ 0) (hy : t.tokenReserve ≠ 0) :
    (a / (t.pairReserve / t.tokenReserve) < t.tokenReserve →
      ∃ np st2, executeBuy st tid a now =
        (.success (a / (t.pairReserve / t.tokenReserve)) 0 false np, st2)) ∧
    (t.tokenReserve ≤ a / (t.pairReserve / t.tokenReserve) →
      executeBuy st tid a now = (.failure "Insufficient liquidity for this trade", st)) := by
  have hres : ¬ (t.pairReserve = 0 ∨ t.tokenReserve = 0) := by
    push_neg
    exact ⟨hx, hy⟩
  constructor
  · intro hlt
    obtain ⟨np, st2, heq, _⟩ := executeBuy_ideal_success hfind hs ha hres (not_le.mpr hlt)
    exact ⟨np, st2, heq⟩
  · intro hge
    exact executeBuy_ideal_fail_drain hfind hs ha hres hge

/-- Witness for the amended C9 on the funded pool (1000, 1000) with input
100 and slippage off. -/
theorem claim_C9_ideal_spot_swap_witness :
    findTokenById c2St.tokens 1 = some c2Tok ∧
    c2St.applySlippage = false ∧ (0 : ℚ) < 100 ∧
    c2Tok.pairReserve ≠ 0 ∧ c2Tok.tokenReserve ≠ 0 ∧
    ((100 / (c2Tok.pairReserve / c2Tok.tokenReserve) < c2Tok.tokenReserve →
      ∃ np st2, executeBuy c2St 1 100 0 =
        (.success (100 / (c2Tok.pairReserve / c2Tok.tokenReserve)) 0 false np, st2)) ∧
    (c2Tok.tokenReserve ≤ 100 / (c2Tok.pairReserve / c2Tok.tokenReserve) →
      executeBuy c2St 1 100 0 = (.failure "Insufficient liquidity for this trade", c2St))) :=
  ⟨by with_unfolding_all rfl, rfl, by norm_num,
    by apply of_decide_eq_true; with_unfolding_all rfl,
    by apply of_decide_eq_true; with_unfolding_all rfl,
    claim_C9_ideal_spot_swap c2St 1 100 0 c2Tok (by with_unfolding_all rfl) rfl (by norm_num)
      (by apply of_decide_eq_true; with_unfolding_all rfl)
      (by apply of_decide_eq_true; with_unfolding_all rfl)⟩

/-! ### Claim C1 -/

/-- C1 (counterexample): a stale single-hop route whose precomputed output
(50) exceeds the pool's execution-time token reserve (5) — an invalid hop that
would more than drain the pool — is nevertheless executed: `executeRoute`
reports success and commits the mutation, leaving the reserve at −45.  The
claim that execution re-validates each hop and fails with no reserve changes
is therefore false of the code. -/
theorem claim_C1_counterexample :
    c1Route.hops.map (fun h => h.amountOut) = [50] ∧
    (findTokenById c1St.tokens 1).map (fun t => t.tokenReserve) = some 5 ∧
    (5 : ℚ) < 50 ∧
    ((executeRoute c1St (some c1Route) 10 "wallet-1").1).isSuccess = true ∧
    (findTokenById (executeRoute c1St (some c1Route) 10 "wallet-1").2.tokens 1).map
      (fun t => t.tokenReserve) = some (-45) ∧
    (-45 : ℚ) < 0 := by
  refine ⟨?_, ?_, ?_, ?_, ?_, ?_⟩
  · with_unfolding_all rfl
  · with_unfolding_all rfl
  · apply of_decide_eq_true
    with_unfolding_all rfl
  · with_unfolding_all rfl
  · with_unfolding_all rfl
  · apply of_decide_eq_true
    with_unfolding_all rfl

/-- C1 (amended): `executeRoute` validates only that the route is present and
non-empty; that rejection happens with no state change, and any route with at
least one hop is committed unconditionally — every hop's precomputed reserve
mutation is applied and the call reports success, with no per-hop liquidity
re-validation of any kind. -/
theorem claim_C1_no_revalidation (st : St) (r : Route) (a : ℚ) (w : String) :
    executeRoute st none a w = (.invalidRoute, st) ∧
    (r.hops = [] → executeRoute st (some r) a w = (.invalidRoute, st)) ∧
    (r.hops ≠ [] → ∃ eh, (executeRoute st (some r) a w).1 =
      .success r.totalAmountOut eh r.totalPriceImpact r.pathDescription) := by
  refine ⟨rfl, ?_, ?_⟩
  · intro h
    simp only [executeRoute]
    rw [if_pos (by simp [List.isEmpty_iff, h])]
  · intro h
    simp only [executeRoute]
    rw [if_neg (by simp [List.isEmpty_iff, h])]
    rcases hres : executeRouteLoop st r.hops [] with ⟨st2, ex⟩
    exact ⟨ex, rfl⟩

/-- Witness for the amended C1 on the stale route of the counterexample
state. -/
theorem claim_C1_no_revalidation_witness :
    executeRoute c1St none 10 "wallet-1" = (ExecResult.invalidRoute, c1St) ∧
    c1Route.hops ≠ [] ∧
    (∃ eh, (executeRoute c1St (some c1Route) 10 "wallet-1").1 =
      .success c1Route.totalAmountOut eh c1Route.totalPriceImpact c1Route.pathDescription) :=
  ⟨(claim_C1_no_revalidation c1St c1Route 10 "wallet-1").1, by decide,
    (claim_C1_no_revalidation c1St c1Route 10 "wallet-1").2.2 (by decide)⟩

/-! ### Claim C3 -/

/-- C3 (code bug): on the acyclic chain T (TOKEN-paired to W) → W
(WPLS-paired), with stale caches and `plsPrice = 1`, the convergence pass
caches the correct price 1 for W but caches 0 for T, even though T's pool
ratio times its paired token's resolved price is 1/2 (and a standalone
resolution of T indeed returns 1/2).  The shared visited set of
`updateAllTokenPrices` makes the recursive step see W as circular, so the
claimed postcondition — every Token-paired token's cached price equals its
pool ratio times its paired token's resolved price — fails on the code. -/
theorem claim_C3_convergence_bug :
    (calculateTokenPriceUSD 4 c3St tokT [] 10000).map (fun r => r.1) = some (1 / 2) ∧
    (updateAllTokenPrices c3St 10000).bind
      (fun st' => (findTokenById st'.tokens 1).map (fun t => t.cachedUSDPrice)) = some 1 ∧
    (updateAllTokenPrices c3St 10000).bind
      (fun st' => (findTokenById st'.tokens 2).map (fun t => t.cachedUSDPrice)) = some 0 ∧
    tokT.pairReserve / tokT.tokenReserve * 1 = 1 / 2 ∧
    (1 / 2 : ℚ) ≠ 0 := by
  refine ⟨?_, ?_, ?_, ?_, ?_⟩
  · with_unfolding_all rfl
  · with_unfolding_all rfl
  · with_unfolding_all rfl
  · with_unfolding_all rfl
  · norm_num

/-! ### Claim C4 -/

/-- C4 (code bug): two individually accepted liquidity operations drive
`availableSupply` negative.  First B (paired with A, 60 A locked as B's pair
reserve) is funded; then A's own pool accepts 50 A because `addLiquidity`
checks only `totalSupply - tokenReserve` (100) instead of
`getAvailableSupply()` (40).  Afterwards A's available supply is −10 < 0,
violating the claimed invariant. -/
theorem claim_C4_available_supply_bug :
    c4Step1.1 = true ∧
    c4Step2.1 = true ∧
    availableSupplyOf c4Step2.2 1 = some (-10) ∧
    (-10 : ℚ) < 0 := by
  refine ⟨?_, ?_, ?_, ?_⟩
  · with_unfolding_all rfl
  · with_unfolding_all rfl
  · with_unfolding_all rfl
  · norm_num

/-! ### Claim C7 -/

/-- C7 (counterexample): on the specified scenario — anchor pool X with
reserves (1000, 1000) and Token pool Y paired with X with reserves
(1000, 500) — `findBestPath(Y, 100)` returns total output
994009000/6492509 ≈ 153.1, which is not less than 50: the claimed bound
`100 × 0.5 = 50` does not hold of the code (spot-converting 100 anchor units
through the two pools yields 200 Y, not 50). -/
theorem claim_C7_counterexample :
    (findBestPath c7St tokY 100).map (fun r => r.totalAmountOut) =
      some (994009000 / 6492509) ∧
    ¬ ((994009000 : ℚ) / 6492509 < 50) := by
  refine ⟨?_, ?_⟩
  · with_unfolding_all rfl
  · apply of_decide_eq_true
    with_unfolding_all rfl

/-- C7 (amended): on that scenario `findBestPath(Y, 100)` finds the path
routed through X (token ids [1, 2] = X then Y), and the route's total output
is greater than 0 and less than the naive spot-rate output of
200 (= 100 / 0.5), reduced by the 0.3% fees and slippage of the two hops. -/
theorem claim_C7_routing :
    findAllPaths c7St tokY none = [[tokX, tokY]] ∧
    (findBestPath c7St tokY 100).map (fun r => r.hops.map (fun h => h.token.id)) =
      some [1, 2] ∧
    (findBestPath c7St tokY 100).map (fun r => r.totalAmountOut) =
      some (994009000 / 6492509) ∧
    0 < (994009000 : ℚ) / 6492509 ∧
    (994009000 : ℚ) / 6492509 < 200 := by
  refine ⟨?_, ?_, ?_, ?_, ?_⟩
  · with_unfolding_all rfl
  · with_unfolding_all rfl
  · with_unfolding_all rfl
  · apply of_decide_eq_true
    with_unfolding_all rfl
  · apply of_decide_eq_true
    with_unfolding_all rfl

/-! ### Read-only character of the capital analyzer -/

theorem derived_cacheEq (st : St) (t : Token) (now : ℤ) :
    cacheEq st (calculateDerivedCapital st t now).2 := by
  unfold calculateDerivedCapital
  split
  · split
    · exact cacheEq_refl st
    · split
      · split
        · exact cacheEq_refl st
        · rename_i heq
          exact calc_cacheEq _ _ _ _ _ heq
      · exact cacheEq_refl st
  · exact cacheEq_refl st

theorem breakdownLoop_cacheEq (now : ℤ) :
    ∀ (ids : List Nat) (st : St) (r d : ℚ) (td tc : Nat),
    cacheEq st (breakdownLoop now st r d td tc ids).2
  | [], st, _, _, _, _ => cacheEq_refl st
  | i :: rest, st, r, d, td, tc => by
    unfold breakdownLoop
    dsimp only
    split
    · exact breakdownLoop_cacheEq now rest st r d td tc
    · rename_i t hfind
      split
      · exact cacheEq_trans (derived_cacheEq st t now)
          (breakdownLoop_cacheEq now rest (calculateDerivedCapital st t now).2 _ _ _ _)
      · exact cacheEq_trans (derived_cacheEq st t now)
          (breakdownLoop_cacheEq now rest (calculateDerivedCapital st t now).2 _ _ _ _)

theorem getCapitalBreakdown_cacheEq (st : St) (now : ℤ) :
    cacheEq st (getCapitalBreakdown st now).2 := by
  unfold getCapitalBreakdown
  dsimp only
  exact breakdownLoop_cacheEq now (st.tokens.map (fun t => t.id)) st 0 0 0 0

theorem cascadeEntries_cacheEq (now : ℤ) (mult : ℚ) :
    ∀ (ids : List Nat) (st : St), cacheEq st (cascadeEntries now mult st ids).2
  | [], st => cacheEq_refl st
  | i :: rest, st => by
    unfold cascadeEntries
    dsimp only
    split
    · exact cascadeEntries_cacheEq now mult rest st
    · rename_i t hfind
      exact cacheEq_trans (derived_cacheEq st t now)
        (cascadeEntries_cacheEq now mult rest (calculateDerivedCapital st t now).2)

theorem calculateCascadeImpact_cacheEq (st : St) (pct : ℚ) (now : ℤ) :
    cacheEq st (calculateCascadeImpact st pct now).2 := by
  unfold calculateCascadeImpact
  dsimp only
  exact cacheEq_trans (getCapitalBreakdown_cacheEq st now)
    (cascadeEntries_cacheEq now (1 + pct / 100)
      ((getCapitalBreakdown st now).2.tokens.map (fun t => t.id))
      (getCapitalBreakdown st now).2)

/-! ### Claim C10 -/

/-- C10: `getCapitalBreakdown` and `calculateCascadeImpact` never change any
pool reserve, `k`, LP supply, or the PLS price: for every state, both
functions return a state whose reserves view (id, tokenReserve, pairReserve,
k, lpTotalSupply per token) and `plsPrice` coincide with the input's — the
shock simulation computes hypothetical values without writing them back, and
the only state the analyzers touch is the price caches. -/
theorem claim_C10_analyzers_read_only (st : St) (pct : ℚ) (now : ℤ) :
    (getCapitalBreakdown st now).2.tokens.map reservesView = st.tokens.map reservesView ∧
    (getCapitalBreakdown st now).2.plsPrice = st.plsPrice ∧
    (calculateCascadeImpact st pct now).2.tokens.map reservesView =
      st.tokens.map reservesView ∧
    (calculateCascadeImpact st pct now).2.plsPrice = st.plsPrice := by
  have h1 := getCapitalBreakdown_cacheEq st now
  have h2 := calculateCascadeImpact_cacheEq st pct now
  exact ⟨reservesView_congr _ _ h1.1, h1.2.1, reservesView_congr _ _ h2.1, h2.2.1⟩

/-! ### Claim C8 -/

/-- Liquidity depth only reads pairing structure, so it is invariant under
price-cache changes. -/
theorem depth_congr : ∀ (fuel : Nat) (st1 st2 : St) (t1 t2 : Token) (vis : List Nat),
    st1.tokens.map eraseCache = st2.tokens.map eraseCache →
    eraseCache t1 = eraseCache t2 →
    calculateLiquidityDepth fuel st1 t1 vis = calculateLiquidityDepth fuel st2 t2 vis
  | 0, _, _, _, _, _, _, _ => rfl
  | fuel + 1, st1, st2, t1, t2, vis, hst, ht => by
    obtain ⟨hid, hpt, hpid, _, _, _, _, _⟩ := eraseCache_fields ht
    simp only [calculateLiquidityDepth]
    rw [hid, hpt, hpid]
    by_cases hv : vis.contains t2.id = true
    · rw [if_pos hv, if_pos hv]
    · rw [if_neg hv, if_neg hv]
      cases hp : t2.pairType with
      | USD => rfl
      | WPLS => rfl
      | TOKEN =>
        cases hpp : t2.pairedTokenId with
        | none => rfl
        | some pid =>
          dsimp only
          have hfc := findTokenById_congr_eraseCache st1.tokens st2.tokens hst pid
          cases h1 : findTokenById st1.tokens pid with
          | none =>
            cases h2 : findTokenById st2.tokens pid with
            | none => rfl
            | some p2 => rw [h1, h2] at hfc; simp at hfc
          | some p1 =>
            cases h2 : findTokenById st2.tokens pid with
            | none => rw [h1, h2] at hfc; simp at hfc
            | some p2 =>
              dsimp only
              have hep : eraseCache p1 = eraseCache p2 := by
                rw [h1, h2] at hfc
                simpa using hfc
              rw [depth_congr fuel st1 st2 p1 p2 (t2.id :: vis) hst hep]

theorem mem_insertImpactDesc (e : ImpactEntry) :
    ∀ (l : List ImpactEntry) (x : ImpactEntry), x = e ∨ x ∈ l → x ∈ insertImpactDesc e l
  | [], x, h => by
    rcases h with rfl | h
    · exact List.mem_singleton.mpr rfl
    · exact absurd h (List.not_mem_nil x)
  | y :: ys, x, h => by
    unfold insertImpactDesc
    split
    · rcases h with rfl | h
      · exact List.mem_cons_self x (y :: ys)
      · exact List.mem_cons_of_mem e h
    · rcases h with rfl | h
      · exact List.mem_cons_of_mem y (mem_insertImpactDesc x ys x (Or.inl rfl))
      · rcases List.mem_cons.mp h with rfl | h2
        · exact List.mem_cons_self x (insertImpactDesc e ys)
        · exact List.mem_cons_of_mem y (mem_insertImpactDesc e ys x (Or.inr h2))

theorem mem_sortImpactsDesc :
    ∀ (l : List ImpactEntry) (x : ImpactEntry), x ∈ l → x ∈ sortImpactsDesc l
  | [], x, h => absurd h (List.not_mem_nil x)
  | y :: ys, x, h => by
    unfold sortImpactsDesc
    rcases List.mem_cons.mp h with rfl | h2
    · exact mem_insertImpactDesc x (sortImpactsDesc ys) x (Or.inl rfl)
    · exact mem_insertImpactDesc y (sortImpactsDesc ys) x (Or.inr (mem_sortImpactsDesc ys x h2))

/-- The per-token cascade loop produces, for every id on its list that
resolves in the reference state, an entry built exactly by `mkImpactEntry`
from that token's depth. -/
theorem cascadeEntries_mem (now : ℤ) (mult : ℚ) (st0 : St) (tid : Nat) (t : Token) (d : Nat)
    (hf0 : findTokenById st0.tokens tid = some t)
    (hd : calculateLiquidityDepth (st0.tokens.length + 2) st0 t [] = some d) :
    ∀ (ids : List Nat) (st : St), cacheEq st0 st → tid ∈ ids →
    ∃ e ∈ (cascadeEntries now mult st ids).1,
      e.tokenId = tid ∧ e.depth = some d ∧
      e.newValue = some (e.originalValue * mult ^ (d + 1)) ∧
      (e.originalValue ≠ 0 →
        e.changePercent = some
          ((e.originalValue * mult ^ (d + 1) - e.originalValue) / e.originalValue * 100))
  | [], _, _, hmem => absurd hmem (List.not_mem_nil _)
  | i :: rest, st, hceq, hmem => by
    unfold cascadeEntries
    by_cases hi : i = tid
    · subst hi
      obtain ⟨t1, hf1, her1⟩ := find_cacheEq_some hceq hf0
      rw [hf1]
      dsimp only
      have hlen : st.tokens.length = st0.tokens.length := cacheEq_length hceq
      have hdep : calculateLiquidityDepth (st.tokens.length + 2) st t1 [] = some d := by
        rw [hlen, depth_congr (st0.tokens.length + 2) st st0 t1 t [] hceq.1 her1]
        exact hd
      rw [hdep]
      refine ⟨mkImpactEntry i (some d)
        (calculateRealCapital st t1 + (calculateDerivedCapital st t1 now).1) mult,
        List.mem_cons_self _ _, rfl, rfl, rfl, ?_⟩
      intro h
      simp only [mkImpactEntry] at h ⊢
      rw [if_neg h]
    · have hmem' : tid ∈ rest := by
        rcases List.mem_cons.mp hmem with h | h
        · exact absurd h.symm hi
        · exact h
      cases hfind : findTokenById st.tokens i with
      | none =>
        exact cascadeEntries_mem now mult st0 tid t d hf0 hd rest st hceq hmem'
      | some t1 =>
        dsimp only
        have hceq' : cacheEq st0 (calculateDerivedCapital st t1 now).2 :=
          cacheEq_trans hceq (derived_cacheEq st t1 now)
        obtain ⟨e, he, hprops⟩ :=
          cascadeEntries_mem now mult st0 tid t d hf0 hd rest _ hceq' hmem'
        exact ⟨e, List.mem_cons_of_mem _ he, hprops⟩

/-- C8: for every token whose liquidity depth is a finite `d`,
`calculateCascadeImpact(pct)` reports an entry whose new value is the token's
current value multiplied by `(1 + pct/100)^(d+1)`, and — when that value is
non-zero — a change of exactly `((1 + pct/100)^(d+1) - 1) × 100` percent; in
particular a shock to a depth-2 pool changes its value by
`(1 + pct/100)^3 - 1`. -/
theorem claim_C8_cascade_depth_compounding (st : St) (pct : ℚ) (now : ℤ)
    (tid : Nat) (t : Token) (d : Nat)
    (hf : findTokenById st.tokens tid = some t)
    (hd : calculateLiquidityDepth (st.tokens.length + 2) st t [] = some d) :
    ∃ e ∈ (calculateCascadeImpact st pct now).1.impacts,
      e.tokenId = tid ∧ e.depth = some d ∧
      e.newValue = some (e.originalValue * (1 + pct / 100) ^ (d + 1)) ∧
      (e.originalValue ≠ 0 →
        e.changePercent = some (((1 + pct / 100) ^ (d + 1) - 1) * 100)) := by
  have hceq : cacheEq st (getCapitalBreakdown st now).2 := getCapitalBreakdown_cacheEq st now
  obtain ⟨t1, hf1, her1⟩ := find_cacheEq_some hceq hf
  have htid : tid ∈ (getCapitalBreakdown st now).2.tokens.map (fun u => u.id) := by
    have hm := findTokenById_mem hf1
    have hi : t1.id = tid := findTokenById_eq_some_id hf1
    exact hi ▸ List.mem_map_of_mem _ hm
  obtain ⟨e, hmem, hetid, hedep, henew, hecp⟩ :=
    cascadeEntries_mem now (1 + pct / 100) st tid t d hf hd
      ((getCapitalBreakdown st now).2.tokens.map (fun u => u.id))
      (getCapitalBreakdown st now).2 hceq htid
  refine ⟨e, ?_, hetid, hedep, henew, ?_⟩
  · show e ∈ (calculateCascadeImpact st pct now).1.impacts
    unfold calculateCascadeImpact
    dsimp only
    exact mem_sortImpactsDesc _ e hmem
  · intro h
    rw [hecp h]
    congr 1
    field_simp
    ring

/-- Witness for C8 on the depth-2 chain T0 (USD) ← T1 ← T2 with a +10%
shock. -/
theorem claim_C8_cascade_depth_compounding_witness :
    findTokenById c8St.tokens 3 = some c8t2 ∧
    calculateLiquidityDepth (c8St.tokens.length + 2) c8St c8t2 [] = some 2 ∧
    (∃ e ∈ (calculateCascadeImpact c8St 10 10000).1.impacts,
      e.tokenId = 3 ∧ e.depth = some 2 ∧
      e.newValue = some (e.originalValue * (1 + (10 : ℚ) / 100) ^ (2 + 1)) ∧
      (e.originalValue ≠ 0 →
        e.changePercent = some (((1 + (10 : ℚ) / 100) ^ (2 + 1) - 1) * 100))) :=
  ⟨by with_unfolding_all rfl, by with_unfolding_all rfl,
    claim_C8_cascade_depth_compounding c8St 10 10000 3 c8t2 2
      (by with_unfolding_all rfl) (by with_unfolding_all rfl)⟩

end InfiniteTransactions
